import Mathlib

/-!
# Request handling layer of `api/api.go`

A shallow embedding of the HTTP handlers of `api/api.go` (package `api`) and
proofs about them.

Conventions of the embedding.

* Go `int` is modelled as `Int`; the only arithmetic of the file that can leave
  the machine range, the offset product of `searchHandler`, is wrapped to the
  64 bit two's complement range by `wrapInt`.
* `[]byte` values are modelled as `String`.
* An `http.ResponseWriter` is a record (`ResponseWriter`) following the contract
  documented for that interface: the first `WriteHeader` commits the status
  together with a snapshot of the header map, later changes of the header map
  do not reach the client, and the first `Write` commits status 200 when nothing
  was committed before. Informational (1xx) codes, codes that forbid a body and
  transport failures of `Write` are outside the model; the handlers use 200
  and codes of the 4xx and 5xx classes only.
* Effects on the collaborators (`app.errorLogger`, `app.db`, the request body,
  the JSON encoder) are recorded, in program order, in the `trace` of the
  handler state `St`.
* `encoding/json` is external to the file. `json.Marshal` and
  `json.Encoder.Encode` are parameters (`JsonLib`), so that the error branches
  of the source stay reachable; `json.Decoder.Decode` into a `searchRequest` is
  modelled on parsed JSON values by `decodeSearchRequest`.
-/

namespace Api

/-! ## Constants -/

/-- Byte slices are modelled as strings. -/
abbrev Bytes := String

/-- The Go `error` values are modelled by their detail text. -/
abbrev Error := String

/-- Code of `http.StatusOK`. -/
def StatusOK : Nat := 200

/-- Code of `http.StatusBadRequest`. -/
def StatusBadRequest : Nat := 400

/-- Code of `http.StatusMethodNotAllowed`. -/
def StatusMethodNotAllowed : Nat := 405

/-- Code of `http.StatusInternalServerError`. -/
def StatusInternalServerError : Nat := 500

/-- Value of `http.MethodPost`. -/
def MethodPost : String := "POST"

/-! ## Machine integers -/

/-- Smallest value of a 64 bit Go `int`. -/
def minInt : Int := -9223372036854775808

/-- Largest value of a 64 bit Go `int`. -/
def maxInt : Int := 9223372036854775807

/-- Two's complement wrap-around of a mathematical integer to 64 bits, the
result of Go `int` arithmetic on 64 bit targets. -/
def wrapInt (x : Int) : Int :=
  (x + 9223372036854775808) % 18446744073709551616 - 9223372036854775808

/-! ## Data model -/

/-- The `errorMessage` struct. -/
structure errorMessage where
  Message : String
  deriving DecidableEq, Repr

/-- The `searchRequest` struct: two `int` fields, no filter field. -/
structure searchRequest where
  Page : Int
  Results : Int
  deriving DecidableEq, Repr

/-- The `searchResponse` struct declared inside `searchHandler`. -/
structure searchResponse (Item : Type) where
  Results : List Item
  Page : Int
  Total : Int

/-- The `database` interface. -/
structure database (Item : Type) where
  GetCompany : String → Except Error String
  MetaRead : String → Except Error String
  Search : searchRequest → Except Error (List Item)

/-- The `api` struct. The `errorLogger` field is the append-only channel
recorded by `Event.errorLog` in the trace. -/
structure api (Item : Type) where
  db : database Item
  host : String

/-- The two functions of `encoding/json` the handlers call to produce bytes. -/
structure JsonLib (Item : Type) where
  marshal : errorMessage → Except Error Bytes
  encode : searchResponse Item → Except Error Bytes

/-! ## JSON values and decoding into `searchRequest` -/

/-- Parsed JSON values. `int n` is a number literal with neither fraction nor
exponent, `float lit` any other number literal. -/
inductive Json where
  | null : Json
  | bool (b : Bool) : Json
  | int (n : Int) : Json
  | float (lit : String) : Json
  | str (s : String) : Json
  | arr (items : List Json) : Json
  | obj (fields : List (String × Json)) : Json

/-- Case folding of one character as `encoding/json` does when it matches an
object key against a field name, restricted to the fold orbits that contain
an ASCII letter (no other character can match the ASCII names used here):
ASCII lower case letters, the long s (U+017F) and the Kelvin sign (U+212A). -/
def foldRune (c : Char) : Char :=
  if c = Char.ofNat 0x17F then 'S'
  else if c = Char.ofNat 0x212A then 'K'
  else c.toUpper

/-- Folded form of a key. -/
def foldName (s : String) : List Char := s.toList.map foldRune

/-- The fields of `searchRequest`. -/
inductive Field where
  | page : Field
  | results : Field
  deriving DecidableEq, Repr

/-- Field of `searchRequest` an object key denotes, by its `json` tag, exact or
case-insensitive. -/
def fieldOf (key : String) : Option Field :=
  if foldName key = foldName "page" then some Field.page
  else if foldName key = foldName "results" then some Field.results
  else none

/-- Store of one JSON value into an `int` field: `null` leaves the field, an
integer literal inside the machine range sets it, anything else is a type
error. -/
def storeInt (old : Int) : Json → Except Error Int
  | Json.null => Except.ok old
  | Json.int n => if minInt ≤ n ∧ n ≤ maxInt then Except.ok n else Except.error "number out of range"
  | _ => Except.error "cannot unmarshal into Go value of type int"

/-- Decoding state: the struct filled so far and the first saved type error. -/
structure DecodeState where
  req : searchRequest
  err : Option Error

/-- One key-value pair of an object: unknown keys are skipped, known keys
store into their field, a type error is saved (the first one wins) and
decoding goes on. -/
def decodeField (d : DecodeState) (kv : String × Json) : DecodeState :=
  match fieldOf kv.1 with
  | none => d
  | some Field.page =>
    match storeInt d.req.Page kv.2 with
    | Except.ok n => { d with req := { d.req with Page := n } }
    | Except.error e => { d with err := d.err.orElse (fun _ => some e) }
  | some Field.results =>
    match storeInt d.req.Results kv.2 with
    | Except.ok n => { d with req := { d.req with Results := n } }
    | Except.error e => { d with err := d.err.orElse (fun _ => some e) }

/-- Unmarshalling of a JSON value into the zero `searchRequest`. -/
def decodeSearchRequest : Json → Except Error searchRequest
  | Json.null => Except.ok ⟨0, 0⟩
  | Json.obj fields =>
    let d := fields.foldl decodeField ⟨⟨0, 0⟩, none⟩
    match d.err with
    | none => Except.ok d.req
    | some e => Except.error e
  | _ => Except.error "cannot unmarshal into Go value of type api.searchRequest"

/-- Result of `json.NewDecoder(body).Decode(&req)`: `none` is a body that does
not start with a well-formed JSON value (the empty body included),
`some v` a body whose first JSON value parses to `v`. -/
def decodeBody : Option Json → Except Error searchRequest
  | none => Except.error "invalid character"
  | some v => decodeSearchRequest v

/-! ## Response writer and handler state -/

/-- State of an `http.ResponseWriter`. `header` is the map returned by
`Header()`, `sent` the snapshot of it committed with the status line. -/
structure ResponseWriter where
  header : List (String × String)
  wroteHeader : Bool
  status : Nat
  sent : List (String × String)
  body : List Bytes
  deriving DecidableEq, Repr

/-- A writer nothing was done to. -/
def ResponseWriter.fresh : ResponseWriter := ⟨[], false, 0, [], []⟩

/-- Effect of `w.Header().Set(k, v)`. -/
def ResponseWriter.headerSet (w : ResponseWriter) (k v : String) : ResponseWriter :=
  { w with header := (w.header.filter (fun kv => kv.1 ≠ k)) ++ [(k, v)] }

/-- Effect of `w.WriteHeader(s)`: the first call commits, later calls are ignored. -/
def ResponseWriter.WriteHeader (w : ResponseWriter) (s : Nat) : ResponseWriter :=
  if w.wroteHeader then w
  else { w with wroteHeader := true, status := s, sent := w.header }

/-- Effect of `w.Write(b)`: commits status 200 when nothing is committed yet. -/
def ResponseWriter.Write (w : ResponseWriter) (b : Bytes) : ResponseWriter :=
  let w1 := if w.wroteHeader then w else w.WriteHeader StatusOK
  { w1 with body := w1.body ++ [b] }

/-- Effects of a handler on its collaborators. -/
inductive Event (Item : Type) where
  | decode : Event Item
  | search (req : searchRequest) : Event Item
  | encode (resp : searchResponse Item) : Event Item
  | errorLog (b : Bytes) : Event Item

/-- State threaded through a handler: the writer and the trace of effects. -/
structure St (Item : Type) where
  w : ResponseWriter
  trace : List (Event Item)

/-- The `http.Request` fields the handlers read. -/
structure Request where
  Method : String
  Host : String
  Body : Option Json

/-- A handler `func(http.ResponseWriter, *http.Request)`. -/
abbrev Handler (Item : Type) := St Item → Request → St Item

variable {Item : Type}

/-- A state with a fresh writer and an empty trace. -/
def St.fresh : St Item := ⟨ResponseWriter.fresh, []⟩

/-- Lift of `ResponseWriter.WriteHeader`. -/
def St.WriteHeader (st : St Item) (s : Nat) : St Item := { st with w := st.w.WriteHeader s }

/-- Lift of `ResponseWriter.headerSet`. -/
def St.headerSet (st : St Item) (k v : String) : St Item := { st with w := st.w.headerSet k v }

/-- Lift of `ResponseWriter.Write`. -/
def St.Write (st : St Item) (b : Bytes) : St Item := { st with w := st.w.Write b }

/-- Append of an effect to the trace. -/
def St.record (st : St Item) (e : Event Item) : St Item := { st with trace := st.trace ++ [e] }

/-- Effect of `app.errorLogger.Write(b)`. -/
def St.logError (st : St Item) (b : Bytes) : St Item := st.record (Event.errorLog b)

/-- The writes to the error channel, in order. -/
def errorWrites : List (Event Item) → List Bytes
  | [] => []
  | Event.errorLog b :: es => b :: errorWrites es
  | _ :: es => errorWrites es

/-- The requests handed to `db.Search`, in order. -/
def searchCalls : List (Event Item) → List searchRequest
  | [] => []
  | Event.search r :: es => r :: searchCalls es
  | _ :: es => searchCalls es

/-- The responses handed to the JSON encoder, in order. -/
def encodeCalls : List (Event Item) → List (searchResponse Item)
  | [] => []
  | Event.encode r :: es => r :: encodeCalls es
  | _ :: es => encodeCalls es

/-- Number of times the request body was decoded. -/
def decodeCount : List (Event Item) → Nat
  | [] => 0
  | Event.decode :: es => decodeCount es + 1
  | _ :: es => decodeCount es

/-! ## Handlers -/

/-- The method `messageResponse`. -/
def messageResponse (lib : JsonLib Item) (st : St Item) (s : Nat) (m : String) : St Item :=
  if m = "" then
    let st1 := st.WriteHeader s
    if s = StatusInternalServerError then
      st1.logError "Internal server error without error message"
    else st1
  else
    match lib.marshal ⟨m⟩ with
    | Except.error _ =>
      (st.WriteHeader StatusInternalServerError).logError ("Could not wrap message in JSON: " ++ m)
    | Except.ok b =>
      let st1 := st.WriteHeader s
      let st2 := st1.headerSet "Content-type" "application/json"
      let st3 := st2.Write b
      if s = StatusInternalServerError then st3.logError b else st3

/-- The method `companyHandler`: its body is empty in the source. -/
def companyHandler (_app : api Item) : Handler Item := fun st _ => st

/-- The method `updatedHandler`: its body is empty in the source. -/
def updatedHandler (_app : api Item) : Handler Item := fun st _ => st

/-- The method `healthHandler`: its body is empty in the source. -/
def healthHandler (_app : api Item) : Handler Item := fun st _ => st

/-- Defaults of `searchHandler` for the page size and the page. -/
def normalize (req : searchRequest) : searchRequest :=
  let req1 := if req.Results ≤ 0 then { req with Results := 100 } else req
  if req1.Page ≤ 0 then { req1 with Page := 1 } else req1

/-- The local `offset` of `searchHandler`, in 64 bit `int` arithmetic. -/
def searchOffset (req : searchRequest) : Int :=
  wrapInt (wrapInt (req.Page - 1) * req.Results)

/-- Messages of `searchHandler`. -/
def msgMethod : String := "Este endpoint aceita apenas o método POST."

/-- Message for a body that does not decode. -/
def msgDecode : String := "Erro ao decodificar a solicitação JSON."

/-- Message for a failed search. -/
def msgSearch : String := "Erro ao realizar a pesquisa."

/-- Message for a response that does not encode. -/
def msgEncode : String := "Erro ao serializar a resposta JSON."

/-- The method `searchHandler`. The local `offset` is computed and never read
again, as in the source. -/
def searchHandler (lib : JsonLib Item) (app : api Item) : Handler Item := fun st r =>
  if r.Method ≠ MethodPost then
    messageResponse lib st StatusMethodNotAllowed msgMethod
  else
    let st1 := st.record Event.decode
    match decodeBody r.Body with
    | Except.error _ => messageResponse lib st1 StatusBadRequest msgDecode
    | Except.ok req0 =>
      let req := normalize req0
      let _offset := searchOffset req
      let st2 := st1.record (Event.search req)
      match app.db.Search req with
      | Except.error _ => messageResponse lib st2 StatusInternalServerError msgSearch
      | Except.ok results =>
        let resp : searchResponse Item := ⟨results, req.Page, (results.length : Int)⟩
        let st3 := st2.headerSet "Content-type" "application/json"
        let st4 := st3.record (Event.encode resp)
        match lib.encode resp with
        | Except.error _ => messageResponse lib st4 StatusInternalServerError msgEncode
        | Except.ok b => st4.Write b

/-! ## Access guard and server composition -/

/-- Rejection answered by the access guard. The status is a policy choice
inside the client-error class. -/
structure GuardPolicy where
  status : Nat
  message : String
  client : 400 ≤ status ∧ status ≤ 499

/-- Modelled from the spec: the body of `allowedHostWrapper` is missing from
the source, which has its signature and its call in `Serve` only. The guard
compares the configured allowed host (empty means disabled) with the host the
request declares; on a mismatch it answers the policy's client-error rejection
through `messageResponse` and does not run the wrapped handler; otherwise it
runs the wrapped handler on the same writer and request. -/
def allowedHostWrapper (lib : JsonLib Item) (policy : GuardPolicy) (app : api Item)
    (h : Handler Item) : Handler Item := fun st r =>
  if app.host ≠ "" ∧ app.host ≠ r.Host then
    messageResponse lib st policy.status policy.message
  else h st r

/-- What `Serve` sets up: the listening address and the routes registered with
`http.HandleFunc`, in registration order. -/
structure Server (Item : Type) where
  addr : String
  mux : List (String × Handler Item)

/-- The route table literal of `Serve`. -/
def routes (lib : JsonLib Item) (app : api Item) : List (String × Handler Item) :=
  [("/", companyHandler app),
   ("/updated", updatedHandler app),
   ("/healthz", healthHandler app),
   ("/search", searchHandler lib app)]

/-- The function `Serve` up to the start of the listener. `allowedHost` is the
value of the environment variable `ALLOWED_HOST`, `newRelicHandle` the external
`monitor.NewRelicHandle` applied to the telemetry application. -/
def Serve (lib : JsonLib Item) (policy : GuardPolicy)
    (newRelicHandle : String → Handler Item → String × Handler Item)
    (allowedHost : String) (db : database Item) (p : String) : Server Item :=
  let p1 := if p.startsWith ":" then p else ":" ++ p
  let app : api Item := ⟨db, allowedHost⟩
  ⟨p1, (routes lib app).map
    (fun r => newRelicHandle r.1 (allowedHostWrapper lib policy app r.2))⟩

/-! ## Sample collaborators -/

/-- A serializer that never fails, as `json.Marshal` is on a struct of one
string field. -/
def sampleLib : JsonLib Nat :=
  ⟨fun m => Except.ok ("\x7b\"message\":\"" ++ m.Message ++ "\"\x7d"), fun _ => Except.ok "encoded"⟩

/-- A serializer whose two functions fail. -/
def failingLib : JsonLib Nat :=
  ⟨fun _ => Except.error "unsupported value", fun _ => Except.error "unsupported type"⟩

/-- A storage whose search returns three items. -/
def sampleDb : database Nat :=
  ⟨fun _ => Except.ok "", fun _ => Except.ok "", fun _ => Except.ok [10, 20, 30]⟩

/-- A storage whose search fails with the given detail. -/
def failingDb (e : Error) : database Nat :=
  ⟨fun _ => Except.ok "", fun _ => Except.ok "", fun _ => Except.error e⟩

/-- An application with the access guard disabled. -/
def sampleApp : api Nat := ⟨sampleDb, ""⟩

/-- A search request for page 3 with 50 results per page. -/
def samplePost : Request :=
  ⟨"POST", "example.org", some (Json.obj [("page", Json.int 3), ("results", Json.int 50)])⟩

/-- A search request whose page and page size are not positive. -/
def defaultsPost : Request :=
  ⟨"POST", "example.org", some (Json.obj [("page", Json.int (-2)), ("results", Json.int 0)])⟩

/-- A guard policy that answers 403 with a message. -/
def samplePolicy : GuardPolicy := ⟨403, "Host not allowed.", by decide⟩

/-- An application whose access guard admits one host. -/
def guardedApp : api Nat := ⟨sampleDb, "api.example.org"⟩

/-- A search request that declares another host than the admitted one. -/
def foreignPost : Request :=
  ⟨"POST", "other.example.org", some (Json.obj [("page", Json.int 3), ("results", Json.int 50)])⟩

/-! ## Helper lemmas -/

theorem errorWrites_append (xs ys : List (Event Item)) :
    errorWrites (xs ++ ys) = errorWrites xs ++ errorWrites ys := by
  induction xs with
  | nil => rfl
  | cons x xs ih => cases x <;> simp [errorWrites, ih]

theorem searchCalls_append (xs ys : List (Event Item)) :
    searchCalls (xs ++ ys) = searchCalls xs ++ searchCalls ys := by
  induction xs with
  | nil => rfl
  | cons x xs ih => cases x <;> simp [searchCalls, ih]

theorem encodeCalls_append (xs ys : List (Event Item)) :
    encodeCalls (xs ++ ys) = encodeCalls xs ++ encodeCalls ys := by
  induction xs with
  | nil => rfl
  | cons x xs ih => cases x <;> simp [encodeCalls, ih]

theorem decodeCount_append (xs ys : List (Event Item)) :
    decodeCount (xs ++ ys) = decodeCount xs + decodeCount ys := by
  induction xs with
  | nil => simp [decodeCount]
  | cons x xs ih => cases x <;> simp [decodeCount, ih]; omega

/-- The trace after `messageResponse` is the trace before it, followed by at most one
write to the error channel. -/
theorem messageResponse_trace (lib : JsonLib Item) (st : St Item) (s : Nat) (m : String) :
    (messageResponse lib st s m).trace = st.trace ∨
    ∃ b, (messageResponse lib st s m).trace = st.trace ++ [Event.errorLog b] := by
  unfold messageResponse
  split
  · split
    · exact Or.inr ⟨_, rfl⟩
    · exact Or.inl rfl
  · split
    · exact Or.inr ⟨_, rfl⟩
    · split
      · exact Or.inr ⟨_, rfl⟩
      · exact Or.inl rfl

theorem messageResponse_searchCalls (lib : JsonLib Item) (st : St Item) (s : Nat) (m : String) :
    searchCalls (messageResponse lib st s m).trace = searchCalls st.trace := by
  rcases messageResponse_trace lib st s m with h | ⟨b, h⟩
  · rw [h]
  · rw [h, searchCalls_append]; simp [searchCalls]

theorem messageResponse_decodeCount (lib : JsonLib Item) (st : St Item) (s : Nat) (m : String) :
    decodeCount (messageResponse lib st s m).trace = decodeCount st.trace := by
  rcases messageResponse_trace lib st s m with h | ⟨b, h⟩
  · rw [h]
  · rw [h, decodeCount_append]; simp [decodeCount]

theorem messageResponse_encodeCalls (lib : JsonLib Item) (st : St Item) (s : Nat) (m : String) :
    encodeCalls (messageResponse lib st s m).trace = encodeCalls st.trace := by
  rcases messageResponse_trace lib st s m with h | ⟨b, h⟩
  · rw [h]
  · rw [h, encodeCalls_append]; simp [encodeCalls]

theorem normalize_Page (req : searchRequest) :
    (normalize req).Page = if req.Page ≤ 0 then 1 else req.Page := by
  unfold normalize
  by_cases h1 : req.Results ≤ 0 <;> by_cases h2 : req.Page ≤ 0 <;> simp [h1, h2]

theorem normalize_Results (req : searchRequest) :
    (normalize req).Results = if req.Results ≤ 0 then 100 else req.Results := by
  unfold normalize
  by_cases h1 : req.Results ≤ 0 <;> by_cases h2 : req.Page ≤ 0 <;> simp [h1, h2]

theorem normalize_idem (req : searchRequest) : normalize (normalize req) = normalize req := by
  have hp := normalize_Page req
  have hr := normalize_Results req
  have hp2 := normalize_Page (normalize req)
  have hr2 := normalize_Results (normalize req)
  have e1 : (normalize (normalize req)).Page = (normalize req).Page := by
    rw [hp2]; split_ifs with h
    · rw [hp] at h ⊢; split_ifs at h ⊢ <;> omega
    · rfl
  have e2 : (normalize (normalize req)).Results = (normalize req).Results := by
    rw [hr2]; split_ifs with h
    · rw [hr] at h ⊢; split_ifs at h ⊢ <;> omega
    · rfl
  cases hn : normalize (normalize req) with
  | mk a b =>
    cases hm : normalize req with
    | mk c d =>
      rw [hn, hm] at e1 e2
      simp at e1 e2
      rw [e1, e2]

/-- The calls to `Search` made by `searchHandler` on a POST request whose body decodes. -/
theorem searchHandler_searchCalls (lib : JsonLib Item) (app : api Item) (st : St Item)
    (r : Request) (req0 : searchRequest) (hm : r.Method = MethodPost)
    (hd : decodeBody r.Body = Except.ok req0) :
    searchCalls (searchHandler lib app st r).trace = searchCalls st.trace ++ [normalize req0] := by
  unfold searchHandler
  simp only [hm, hd, ne_eq, not_true_eq_false, if_false]
  split
  · rw [messageResponse_searchCalls]
    simp [St.record, searchCalls_append, searchCalls]
  · split
    · rw [messageResponse_searchCalls]
      simp [St.record, St.headerSet, searchCalls_append, searchCalls]
    · simp [St.record, St.headerSet, St.Write, searchCalls_append, searchCalls]

theorem wrapInt_of_range (x : Int) (h1 : minInt ≤ x) (h2 : x ≤ maxInt) : wrapInt x = x := by
  unfold wrapInt
  unfold minInt at h1
  unfold maxInt at h2
  omega

theorem searchOffset_of_range (page results : Int) (hp : 1 ≤ page) (hr : 1 ≤ results)
    (hb : (page - 1) * results ≤ maxInt) :
    searchOffset ⟨page, results⟩ = (page - 1) * results := by
  have h0 : 0 ≤ (page - 1) * results := mul_nonneg (by omega) (by omega)
  have h1 : page - 1 ≤ (page - 1) * results := by nlinarith
  unfold searchOffset
  simp only
  rw [wrapInt_of_range (page - 1) (by unfold minInt; omega) (by omega)]
  exact wrapInt_of_range _ (by unfold minInt; omega) hb

theorem normalize_of_pos (page results : Int) (hp : 1 ≤ page) (hr : 1 ≤ results) :
    normalize ⟨page, results⟩ = ⟨page, results⟩ := by
  unfold normalize
  have h1 : ¬ results ≤ 0 := by omega
  have h2 : ¬ page ≤ 0 := by omega
  simp [h1, h2]

/-! ## Claims -/

/-- Claim C1. For every POST request whose body decodes to a request with integer
fields `page` and `results`, the request `searchHandler` hands to `Search` is the
normalized one: page 1 when `page ≤ 0` and `page` otherwise, 100 results when
`results ≤ 0` and `results` otherwise; both fields are then at least 1 and a
second normalization changes nothing. -/
theorem searchHandler_normalizes (lib : JsonLib Item) (app : api Item) (st : St Item)
    (r : Request) (req0 : searchRequest) (hm : r.Method = MethodPost)
    (hd : decodeBody r.Body = Except.ok req0) :
    searchCalls (searchHandler lib app st r).trace = searchCalls st.trace ++ [normalize req0] ∧
    (normalize req0).Page = (if req0.Page ≤ 0 then 1 else req0.Page) ∧
    (normalize req0).Results = (if req0.Results ≤ 0 then 100 else req0.Results) ∧
    1 ≤ (normalize req0).Page ∧ 1 ≤ (normalize req0).Results ∧
    normalize (normalize req0) = normalize req0 := by
  refine ⟨searchHandler_searchCalls lib app st r req0 hm hd, normalize_Page req0,
    normalize_Results req0, ?_, ?_, normalize_idem req0⟩
  · rw [normalize_Page]; split_ifs <;> omega
  · rw [normalize_Results]; split_ifs <;> omega

/-- Witness of claim C1: page -2 with 0 results reaches `Search` as page 1 with 100 results. -/
theorem searchHandler_normalizes_witness :
    defaultsPost.Method = MethodPost ∧
    decodeBody defaultsPost.Body = Except.ok ⟨-2, 0⟩ ∧
    normalize ⟨-2, 0⟩ = ⟨1, 100⟩ ∧
    searchCalls (searchHandler sampleLib sampleApp St.fresh defaultsPost).trace
      = searchCalls (St.fresh : St Nat).trace ++ [normalize ⟨-2, 0⟩] :=
  ⟨by decide, rfl, by decide,
    (searchHandler_normalizes sampleLib sampleApp St.fresh defaultsPost ⟨-2, 0⟩
      (by decide) rfl).1⟩

/-- Claim C2. At the request for page 3 with 50 results per page the offset local
of `searchHandler` is 100, and the only value `Search` receives is the request
with page 3 and 50 results: the whole trace of effects is the decoding, one
search call and one encoding, and the offset occurs in none of them. -/
theorem searchHandler_offset_not_passed :
    decodeBody samplePost.Body = Except.ok ⟨3, 50⟩ ∧
    searchOffset (normalize ⟨3, 50⟩) = 100 ∧
    (searchHandler sampleLib sampleApp St.fresh samplePost).trace
      = [Event.decode, Event.search ⟨3, 50⟩, Event.encode ⟨[10, 20, 30], 3, 3⟩] ∧
    searchCalls (searchHandler sampleLib sampleApp St.fresh samplePost).trace = [⟨3, 50⟩] ∧
    (⟨3, 50⟩ : searchRequest).Page ≠ 100 ∧ (⟨3, 50⟩ : searchRequest).Results ≠ 100 :=
  ⟨rfl, by decide, rfl, by decide, by decide, by decide⟩

/-- Counterexample to claim C3 as stated. The body with page 4611686018427387905
and 4 results decodes, is a normalized pair of machine integers, and its offset
is 0 where `(page - 1) * results` is 2 ^ 64, so that this page and page 1, two
different pages, have the same window. -/
theorem searchOffset_overflow :
    decodeBody (some (Json.obj [("page", Json.int 4611686018427387905), ("results", Json.int 4)]))
      = Except.ok ⟨4611686018427387905, 4⟩ ∧
    normalize ⟨4611686018427387905, 4⟩ = ⟨4611686018427387905, 4⟩ ∧
    searchOffset ⟨4611686018427387905, 4⟩ = 0 ∧
    ((4611686018427387905 : Int) - 1) * 4 = 18446744073709551616 ∧
    searchOffset ⟨4611686018427387905, 4⟩ ≠ (4611686018427387905 - 1) * 4 ∧
    searchOffset ⟨4611686018427387905, 4⟩ = searchOffset ⟨1, 4⟩ :=
  ⟨rfl, by decide, by decide, by decide, by decide, by decide⟩

/-- Claim C3, amended. For every normalized pair (page at least 1, results at least
1) with `page * results` inside the 64 bit range, the offset computed by
`searchHandler` equals `(page - 1) * results`; for page 1 it is 0 whatever
`results` is; the offset of `page + 1` is the offset of `page` plus `results`;
the windows `[offset p, offset p + results)` of two such pages that share a
position belong to the same page; and page 3 with 50 results has offset 100. -/
theorem searchOffset_windows (page results : Int) (hp : 1 ≤ page) (hr : 1 ≤ results)
    (hb : page * results ≤ maxInt) :
    normalize ⟨page, results⟩ = ⟨page, results⟩ ∧
    searchOffset ⟨page, results⟩ = (page - 1) * results ∧
    (∀ n : Int, searchOffset ⟨1, n⟩ = 0) ∧
    searchOffset ⟨page + 1, results⟩ = searchOffset ⟨page, results⟩ + results ∧
    (∀ q n : Int, 1 ≤ q → q * results ≤ maxInt →
      searchOffset ⟨page, results⟩ ≤ n → n < searchOffset ⟨page, results⟩ + results →
      searchOffset ⟨q, results⟩ ≤ n → n < searchOffset ⟨q, results⟩ + results → q = page) ∧
    searchOffset ⟨3, 50⟩ = 100 := by
  have hlow : (page - 1) * results ≤ maxInt := by nlinarith
  have e1 := searchOffset_of_range page results hp hr hlow
  have e2 : searchOffset ⟨page + 1, results⟩ = page * results := by
    have := searchOffset_of_range (page + 1) results (by omega) hr (by simpa using hb)
    simpa using this
  refine ⟨normalize_of_pos page results hp hr, e1, ?_, ?_, ?_, by decide⟩
  · intro n
    show wrapInt (wrapInt (1 - 1) * n) = 0
    have h0 : wrapInt (1 - 1) = 0 := by decide
    rw [h0, zero_mul]
    decide
  · rw [e1, e2]; ring
  · intro q n hq hqb h1 h2 h3 h4
    have hql : (q - 1) * results ≤ maxInt := by nlinarith
    rw [searchOffset_of_range q results hq hr hql] at h3 h4
    rw [e1] at h1 h2
    rcases lt_trichotomy q page with h | h | h
    · exfalso
      have : 0 ≤ (page - 1 - q) * results := mul_nonneg (by omega) (by omega)
      nlinarith
    · exact h
    · exfalso
      have : 0 ≤ (q - 1 - page) * results := mul_nonneg (by omega) (by omega)
      nlinarith

/-- Witness of claim C3, amended: page 3 with 50 results. -/
theorem searchOffset_windows_witness :
    (1 : Int) ≤ 3 ∧ (1 : Int) ≤ 50 ∧ (3 : Int) * 50 ≤ maxInt ∧
    searchOffset ⟨3, 50⟩ = (3 - 1) * 50 ∧
    searchOffset ⟨3 + 1, 50⟩ = searchOffset ⟨3, 50⟩ + 50 :=
  have h := searchOffset_windows 3 50 (by decide) (by decide) (by decide)
  ⟨by decide, by decide, by decide, h.2.1, h.2.2.2.1⟩

/-- Claim C4. For every POST request whose body decodes and every item list
`Search` returns without error, the response `searchHandler` builds and hands to
the encoder has `results` equal to that list, `total` equal to its length and
`page` equal to the normalized page (1 when the requested page is not positive,
the requested page otherwise); when it encodes, the encoded bytes are written
after the JSON content type was set. -/
theorem searchHandler_response (lib : JsonLib Item) (app : api Item) (st : St Item)
    (r : Request) (req0 : searchRequest) (items : List Item) (hm : r.Method = MethodPost)
    (hd : decodeBody r.Body = Except.ok req0)
    (hs : app.db.Search (normalize req0) = Except.ok items) :
    ∃ resp : searchResponse Item,
      encodeCalls (searchHandler lib app st r).trace = encodeCalls st.trace ++ [resp] ∧
      resp.Results = items ∧
      resp.Total = (items.length : Int) ∧
      resp.Page = (if req0.Page ≤ 0 then 1 else req0.Page) ∧
      (∀ b, lib.encode resp = Except.ok b →
        (searchHandler lib app st r).w
          = (st.w.headerSet "Content-type" "application/json").Write b) := by
  refine ⟨⟨items, (normalize req0).Page, (items.length : Int)⟩, ?_, rfl, rfl,
    normalize_Page req0, ?_⟩
  · unfold searchHandler
    simp only [hm, hd, hs, ne_eq, not_true_eq_false, if_false]
    split
    · rw [messageResponse_encodeCalls]
      simp [St.record, St.headerSet, encodeCalls_append, encodeCalls]
    · simp [St.record, St.headerSet, St.Write, encodeCalls_append, encodeCalls]
  · intro b hb
    unfold searchHandler
    simp only [hm, hd, hs, hb, ne_eq, not_true_eq_false, if_false]
    rfl

/-- Witness of claim C4: three items returned for page 3. -/
theorem searchHandler_response_witness :
    samplePost.Method = MethodPost ∧
    decodeBody samplePost.Body = Except.ok ⟨3, 50⟩ ∧
    sampleApp.db.Search (normalize ⟨3, 50⟩) = Except.ok [10, 20, 30] ∧
    ∃ resp : searchResponse Nat,
      encodeCalls (searchHandler sampleLib sampleApp St.fresh samplePost).trace
        = encodeCalls (St.fresh : St Nat).trace ++ [resp] ∧
      resp.Results = [10, 20, 30] ∧ resp.Total = 3 ∧ resp.Page = 3 := by
  obtain ⟨resp, h1, h2, h3, h4, _⟩ :=
    searchHandler_response sampleLib sampleApp St.fresh samplePost ⟨3, 50⟩ [10, 20, 30]
      (by decide) rfl rfl
  exact ⟨by decide, rfl, rfl, resp, h1, h2, h3, h4⟩

/-- A call of `messageResponse` with status 500 writes exactly once to the error channel. -/
theorem messageResponse_500_trace (lib : JsonLib Item) (st : St Item) (m : String) :
    ∃ b, (messageResponse lib st StatusInternalServerError m).trace
      = st.trace ++ [Event.errorLog b] := by
  unfold messageResponse
  split
  · rw [if_pos rfl]
    exact ⟨_, rfl⟩
  · split
    · exact ⟨_, rfl⟩
    · rw [if_pos rfl]
      exact ⟨_, rfl⟩

/-- Status committed by `messageResponse` on a writer nothing was committed to,
when the message is empty or serializes. -/
theorem messageResponse_status (lib : JsonLib Item) (st : St Item) (s : Nat) (m : String)
    (hw : st.w.wroteHeader = false)
    (hm : m = "" ∨ ∃ b, lib.marshal ⟨m⟩ = Except.ok b) :
    (messageResponse lib st s m).w.status = s := by
  unfold messageResponse
  split
  · split <;> simp [St.logError, St.record, St.WriteHeader, ResponseWriter.WriteHeader, hw]
  · rcases hm with h | ⟨b, hb⟩
    · contradiction
    · rw [hb]
      simp only
      split <;>
        simp [St.logError, St.record, St.WriteHeader, St.headerSet, St.Write,
          ResponseWriter.WriteHeader, ResponseWriter.headerSet, ResponseWriter.Write, hw]

/-- A response `messageResponse` finishes with status 500, on a writer nothing was
committed to, comes with exactly one write to the error channel. -/
theorem messageResponse_status500_trace (lib : JsonLib Item) (st : St Item) (s : Nat)
    (m : String) (hw : st.w.wroteHeader = false)
    (h5 : (messageResponse lib st s m).w.status = StatusInternalServerError) :
    ∃ b, (messageResponse lib st s m).trace = st.trace ++ [Event.errorLog b] := by
  by_cases hm : m = "" ∨ ∃ b, lib.marshal ⟨m⟩ = Except.ok b
  · rw [messageResponse_status lib st s m hw hm] at h5
    subst h5
    exact messageResponse_500_trace lib st m
  · have h1 : ¬ m = "" := fun h => hm (Or.inl h)
    unfold messageResponse
    rw [if_neg h1]
    cases hmar : lib.marshal ⟨m⟩ with
    | error e => exact ⟨_, rfl⟩
    | ok b => exact absurd (Or.inr ⟨b, hmar⟩) hm

/-- Claim C5. Every response `messageResponse` finishes with status 500 comes with
exactly one write to the error channel: with status 500 and an empty message
(the fixed diagnostic text), with status 500 and a message that serializes (the
serialized message), and when the serialization fails, whatever the status asked
for (the response is then committed as 500). Every run of `searchHandler` that
ends with status 500, and in particular every storage failure and every encoding
failure, has exactly one such write. -/
theorem messageResponse_logs_500 (lib : JsonLib Item) (st : St Item) (s : Nat) (m : String) :
    errorWrites (messageResponse lib st StatusInternalServerError "").trace
      = errorWrites st.trace ++ ["Internal server error without error message"] ∧
    (∀ b, m ≠ "" → lib.marshal ⟨m⟩ = Except.ok b →
      errorWrites (messageResponse lib st StatusInternalServerError m).trace
        = errorWrites st.trace ++ [b]) ∧
    (∀ e, m ≠ "" → lib.marshal ⟨m⟩ = Except.error e →
      (messageResponse lib st s m).w = st.w.WriteHeader StatusInternalServerError ∧
      errorWrites (messageResponse lib st s m).trace
        = errorWrites st.trace ++ ["Could not wrap message in JSON: " ++ m]) ∧
    (st.w.wroteHeader = false →
      (messageResponse lib st s m).w.status = StatusInternalServerError →
      ∃ b, errorWrites (messageResponse lib st s m).trace = errorWrites st.trace ++ [b]) ∧
    (∀ (app : api Item) (r : Request), st.w.wroteHeader = false →
      (searchHandler lib app st r).w.status = StatusInternalServerError →
      ∃ b, errorWrites (searchHandler lib app st r).trace = errorWrites st.trace ++ [b]) ∧
    (∀ (app : api Item) (r : Request) (req0 : searchRequest) (e : Error),
      r.Method = MethodPost → decodeBody r.Body = Except.ok req0 →
      app.db.Search (normalize req0) = Except.error e →
      ∃ b, errorWrites (searchHandler lib app st r).trace = errorWrites st.trace ++ [b]) ∧
    (∀ (app : api Item) (r : Request) (req0 : searchRequest) (items : List Item) (e : Error),
      r.Method = MethodPost → decodeBody r.Body = Except.ok req0 →
      app.db.Search (normalize req0) = Except.ok items →
      lib.encode ⟨items, (normalize req0).Page, (items.length : Int)⟩ = Except.error e →
      ∃ b, errorWrites (searchHandler lib app st r).trace = errorWrites st.trace ++ [b]) := by
  refine ⟨?_, ?_, ?_, ?_, ?_, ?_, ?_⟩
  · simp [messageResponse, St.logError, St.record, St.WriteHeader, errorWrites_append,
      errorWrites]
  · intro b hm hb
    simp [messageResponse, hm, hb, St.logError, St.record, St.WriteHeader, St.headerSet,
      St.Write, errorWrites_append, errorWrites]
  · intro e hm he
    simp [messageResponse, hm, he, St.logError, St.record, St.WriteHeader,
      errorWrites_append, errorWrites]
  · intro hw h5
    obtain ⟨b, hb⟩ := messageResponse_status500_trace lib st s m hw h5
    exact ⟨b, by rw [hb, errorWrites_append]; rfl⟩
  · intro app r hw h5
    unfold searchHandler at h5 ⊢
    split at h5
    · obtain ⟨b, hb⟩ := messageResponse_status500_trace lib st _ _ hw h5
      rw [if_pos (by assumption)]
      exact ⟨b, by rw [hb, errorWrites_append]; rfl⟩
    · rw [if_neg (by assumption)]
      simp only at h5 ⊢
      split at h5
      · obtain ⟨b, hb⟩ := messageResponse_status500_trace lib _ _ _ (by exact hw) h5
        exact ⟨b, by rw [hb]; simp [St.record, errorWrites_append, errorWrites]⟩
      · split at h5
        · obtain ⟨b, hb⟩ := messageResponse_500_trace lib
            ((st.record Event.decode).record (Event.search (normalize ‹searchRequest›))) msgSearch
          exact ⟨b, by rw [hb]; simp [St.record, errorWrites_append, errorWrites]⟩
        · split at h5
          · obtain ⟨b, hb⟩ := messageResponse_500_trace lib
              ((((st.record Event.decode).record (Event.search (normalize ‹searchRequest›))).headerSet
                "Content-type" "application/json").record
                  (Event.encode ⟨‹List Item›, (normalize ‹searchRequest›).Page,
                    ((‹List Item›).length : Int)⟩)) msgEncode
            exact ⟨b, by rw [hb]; simp [St.record, St.headerSet, errorWrites_append, errorWrites]⟩
          · exfalso
            simp [St.Write, St.record, St.headerSet, ResponseWriter.Write,
              ResponseWriter.WriteHeader, ResponseWriter.headerSet, hw, StatusOK,
              StatusInternalServerError] at h5
  · intro app r req0 e hm hd hs
    unfold searchHandler
    simp only [hm, hd, hs, ne_eq, not_true_eq_false, if_false]
    obtain ⟨b, hb⟩ := messageResponse_500_trace lib
      ((st.record Event.decode).record (Event.search (normalize req0))) msgSearch
    exact ⟨b, by rw [hb]; simp [St.record, errorWrites_append, errorWrites]⟩
  · intro app r req0 items e hm hd hs he
    unfold searchHandler
    simp only [hm, hd, hs, he, ne_eq, not_true_eq_false, if_false]
    obtain ⟨b, hb⟩ := messageResponse_500_trace lib
      ((((st.record Event.decode).record (Event.search (normalize req0))).headerSet
        "Content-type" "application/json").record
          (Event.encode ⟨items, (normalize req0).Page, (items.length : Int)⟩)) msgEncode
    exact ⟨b, by rw [hb]; simp [St.record, St.headerSet, errorWrites_append, errorWrites]⟩

/-- Witness of claim C5: a serialization failure on a 400 response, a storage
failure and an encoding failure each give one write. -/
theorem messageResponse_logs_500_witness :
    (msgDecode ≠ "" ∧ failingLib.marshal ⟨msgDecode⟩ = Except.error "unsupported value" ∧
      (messageResponse failingLib (St.fresh : St Nat) StatusBadRequest msgDecode).w.status
        = StatusInternalServerError ∧
      errorWrites (messageResponse failingLib (St.fresh : St Nat) StatusBadRequest msgDecode).trace
        = errorWrites (St.fresh : St Nat).trace ++ ["Could not wrap message in JSON: " ++ msgDecode]) ∧
    (∃ b, errorWrites
        (searchHandler sampleLib ⟨failingDb "connection refused", ""⟩ St.fresh samplePost).trace
      = errorWrites (St.fresh : St Nat).trace ++ [b]) ∧
    (∃ b, errorWrites (searchHandler failingLib sampleApp St.fresh samplePost).trace
      = errorWrites (St.fresh : St Nat).trace ++ [b]) :=
  ⟨⟨by decide, rfl, by decide,
      ((messageResponse_logs_500 failingLib St.fresh StatusBadRequest msgDecode).2.2.1
        "unsupported value" (by decide) rfl).2⟩,
    (messageResponse_logs_500 sampleLib St.fresh StatusBadRequest msgDecode).2.2.2.2.2.1
      ⟨failingDb "connection refused", ""⟩ samplePost ⟨3, 50⟩ "connection refused"
      (by decide) rfl rfl,
    (messageResponse_logs_500 failingLib St.fresh StatusBadRequest msgDecode).2.2.2.2.2.2
      sampleApp samplePost ⟨3, 50⟩ [10, 20, 30] "unsupported type" (by decide) rfl rfl rfl⟩

/-- Claim C6. At status 400 with the message of a body that does not decode, which
serializes, `messageResponse` commits the status with the header set as it was
before the call, here empty: `Content-type: application/json` enters the header
map only after the commit and is not part of the committed set, while the body is
the serialized message. This is the response of `searchHandler` to a POST whose
body is not JSON. With an empty message the status alone is written: no body,
no header. -/
theorem messageResponse_header_after_commit :
    msgDecode ≠ "" ∧
    (messageResponse sampleLib (St.fresh : St Nat) StatusBadRequest msgDecode).w
      = ⟨[("Content-type", "application/json")], true, 400, [],
          ["\x7b\"message\":\"Erro ao decodificar a solicitação JSON.\"\x7d"]⟩ ∧
    (messageResponse sampleLib (St.fresh : St Nat) StatusBadRequest msgDecode).w.sent = [] ∧
    searchHandler sampleLib sampleApp St.fresh ⟨"POST", "example.org", none⟩
      = messageResponse sampleLib ((St.fresh : St Nat).record Event.decode) StatusBadRequest msgDecode ∧
    (searchHandler sampleLib sampleApp St.fresh ⟨"POST", "example.org", none⟩).w.sent = [] ∧
    (messageResponse sampleLib (St.fresh : St Nat) StatusBadRequest "").w
      = ⟨[], true, 400, [], []⟩ :=
  ⟨by decide, by decide, by decide, rfl, by decide, by decide⟩

/-- Claim C7. For every request whose method is not POST, whatever its body,
`searchHandler` is the call of `messageResponse` with status 405 and a non-empty
message and nothing else: the body is not decoded and `Search` is not called;
the message serializing, nothing is written to the error channel (the trace is
left as it was) and the response has status 405 with the serialized message as
body. -/
theorem searchHandler_method_not_allowed (lib : JsonLib Item) (app : api Item) (st : St Item)
    (r : Request) (hm : r.Method ≠ MethodPost) :
    searchHandler lib app st r = messageResponse lib st StatusMethodNotAllowed msgMethod ∧
    StatusMethodNotAllowed = 405 ∧
    msgMethod ≠ "" ∧
    decodeCount (searchHandler lib app st r).trace = decodeCount st.trace ∧
    searchCalls (searchHandler lib app st r).trace = searchCalls st.trace ∧
    encodeCalls (searchHandler lib app st r).trace = encodeCalls st.trace ∧
    (∀ b, lib.marshal ⟨msgMethod⟩ = Except.ok b →
      (searchHandler lib app st r).trace = st.trace ∧
      errorWrites (searchHandler lib app st r).trace = errorWrites st.trace ∧
      (st.w.wroteHeader = false →
        (searchHandler lib app st r).w.status = 405 ∧
        (searchHandler lib app st r).w.body = st.w.body ++ [b])) := by
  have h0 : searchHandler lib app st r
      = messageResponse lib st StatusMethodNotAllowed msgMethod := by
    unfold searchHandler
    rw [if_pos hm]
  have hne : msgMethod ≠ "" := by decide
  refine ⟨h0, rfl, hne, ?_, ?_, ?_, ?_⟩
  · rw [h0, messageResponse_decodeCount]
  · rw [h0, messageResponse_searchCalls]
  · rw [h0, messageResponse_encodeCalls]
  · intro b hb
    have ht : (messageResponse lib st StatusMethodNotAllowed msgMethod).trace = st.trace := by
      simp [messageResponse, hne, hb, St.WriteHeader, St.headerSet, St.Write,
        StatusMethodNotAllowed, StatusInternalServerError]
    refine ⟨by rw [h0, ht], by rw [h0, ht], ?_⟩
    intro hw
    rw [h0]
    refine ⟨messageResponse_status lib st _ _ hw (Or.inr ⟨b, hb⟩), ?_⟩
    simp [messageResponse, hne, hb, St.WriteHeader, St.headerSet, St.Write,
      StatusMethodNotAllowed, StatusInternalServerError, ResponseWriter.WriteHeader,
      ResponseWriter.headerSet, ResponseWriter.Write, hw]

/-- Witness of claim C7: a GET request with a search body. -/
theorem searchHandler_method_not_allowed_witness :
    (⟨"GET", "example.org", samplePost.Body⟩ : Request).Method ≠ MethodPost ∧
    (searchHandler sampleLib sampleApp St.fresh ⟨"GET", "example.org", samplePost.Body⟩).trace = [] ∧
    (searchHandler sampleLib sampleApp St.fresh ⟨"GET", "example.org", samplePost.Body⟩).w.status
      = 405 :=
  have h := searchHandler_method_not_allowed sampleLib sampleApp St.fresh
    ⟨"GET", "example.org", samplePost.Body⟩ (by decide)
  have h2 := h.2.2.2.2.2.2 _ rfl
  ⟨by decide, h2.1, (h2.2.2 rfl).1⟩

/-- Decoding an object skips the pairs whose key denotes no field. -/
theorem foldl_decodeField_filter (fields : List (String × Json)) (d : DecodeState) :
    fields.foldl decodeField d
      = (fields.filter (fun kv => (fieldOf kv.1).isSome)).foldl decodeField d := by
  induction fields generalizing d with
  | nil => rfl
  | cons kv rest ih =>
    cases hk : fieldOf kv.1 with
    | none =>
      have hd : decodeField d kv = d := by
        unfold decodeField
        rw [hk]
      simp [List.filter, hk, hd, ih]
    | some f =>
      simp [List.filter, hk, ih]

/-- Claim C8. For every POST request whose body fails to decode as a JSON
`searchRequest`, `searchHandler` is the call of `messageResponse` with status 400
and a non-empty message, and stops: `Search` is not called and nothing is
encoded; the message serializing, the response has status 400 with the
serialized message as body. Conversely the fields of a JSON object whose key
denotes neither `page` nor `results` play no part in decoding: the object
decodes as the object without them does, and when that one decodes the handler
goes on to normalization and to `Search`. -/
theorem searchHandler_decode (lib : JsonLib Item) (app : api Item) (st : St Item)
    (r : Request) (hm : r.Method = MethodPost) :
    (∀ e, decodeBody r.Body = Except.error e →
      searchHandler lib app st r
        = messageResponse lib (st.record Event.decode) StatusBadRequest msgDecode ∧
      StatusBadRequest = 400 ∧ msgDecode ≠ "" ∧
      searchCalls (searchHandler lib app st r).trace = searchCalls st.trace ∧
      encodeCalls (searchHandler lib app st r).trace = encodeCalls st.trace ∧
      (∀ b, lib.marshal ⟨msgDecode⟩ = Except.ok b → st.w.wroteHeader = false →
        (searchHandler lib app st r).w.status = 400 ∧
        (searchHandler lib app st r).w.body = st.w.body ++ [b])) ∧
    (∀ fields : List (String × Json),
      decodeBody (some (Json.obj fields))
        = decodeBody (some (Json.obj (fields.filter (fun kv => (fieldOf kv.1).isSome))))) ∧
    (∀ (fields : List (String × Json)) (req0 : searchRequest),
      r.Body = some (Json.obj fields) →
      decodeBody (some (Json.obj (fields.filter (fun kv => (fieldOf kv.1).isSome))))
        = Except.ok req0 →
      searchCalls (searchHandler lib app st r).trace
        = searchCalls st.trace ++ [normalize req0]) := by
  have hfilter : ∀ fields : List (String × Json),
      decodeBody (some (Json.obj fields))
        = decodeBody (some (Json.obj (fields.filter (fun kv => (fieldOf kv.1).isSome)))) := by
    intro fields
    simp only [decodeBody, decodeSearchRequest]
    rw [← foldl_decodeField_filter]
  refine ⟨?_, hfilter, ?_⟩
  · intro e he
    have hne : msgDecode ≠ "" := by decide
    have h0 : searchHandler lib app st r
        = messageResponse lib (st.record Event.decode) StatusBadRequest msgDecode := by
      unfold searchHandler
      simp only [hm, he, ne_eq, not_true_eq_false, if_false]
    refine ⟨h0, rfl, hne, ?_, ?_, ?_⟩
    · rw [h0, messageResponse_searchCalls]
      simp [St.record, searchCalls_append, searchCalls]
    · rw [h0, messageResponse_encodeCalls]
      simp [St.record, encodeCalls_append, encodeCalls]
    · intro b hb hw
      rw [h0]
      refine ⟨messageResponse_status lib _ _ _ (by exact hw) (Or.inr ⟨b, hb⟩), ?_⟩
      simp [messageResponse, hne, hb, St.WriteHeader, St.headerSet, St.Write, St.record,
        StatusBadRequest, StatusInternalServerError, ResponseWriter.WriteHeader,
        ResponseWriter.headerSet, ResponseWriter.Write, hw]
  · intro fields req0 hbody hdec
    have hd : decodeBody r.Body = Except.ok req0 := by
      rw [hbody, hfilter fields, hdec]
    exact searchHandler_searchCalls lib app st r req0 hm hd

/-- Witness of claim C8: a body that is not JSON is answered 400 without a search,
and a search body with two filter fields reaches `Search` as without them. -/
theorem searchHandler_decode_witness :
    (⟨"POST", "example.org", none⟩ : Request).Method = MethodPost ∧
    decodeBody (none : Option Json) = Except.error "invalid character" ∧
    searchCalls (searchHandler sampleLib sampleApp St.fresh ⟨"POST", "example.org", none⟩).trace
      = searchCalls (St.fresh : St Nat).trace ∧
    (searchHandler sampleLib sampleApp St.fresh ⟨"POST", "example.org", none⟩).w.status = 400 ∧
    searchCalls (searchHandler sampleLib sampleApp St.fresh
        ⟨"POST", "example.org", some (Json.obj [("uf", Json.str "SP"), ("page", Json.int 3),
          ("results", Json.int 50), ("cnae", Json.arr [Json.int 6201])])⟩).trace
      = searchCalls (St.fresh : St Nat).trace ++ [normalize ⟨3, 50⟩] :=
  have h1 := (searchHandler_decode sampleLib sampleApp St.fresh
    ⟨"POST", "example.org", none⟩ (by decide)).1 "invalid character" rfl
  ⟨by decide, rfl, h1.2.2.2.1, (h1.2.2.2.2.2 _ rfl rfl).1,
    (searchHandler_decode sampleLib sampleApp St.fresh
      ⟨"POST", "example.org", some (Json.obj [("uf", Json.str "SP"), ("page", Json.int 3),
        ("results", Json.int 50), ("cnae", Json.arr [Json.int 6201])])⟩ (by decide)).2.2
      _ ⟨3, 50⟩ rfl rfl⟩

/-- Counterexample to claim C9 as stated. Two storages that differ only in the
detail of the failure they report give the same run of `searchHandler`: same
response and same write to the error channel, which is the serialized generic
message and carries neither detail. -/
theorem storage_detail_not_logged :
    ("connection refused" : Error) ≠ "deadlock detected" ∧
    searchHandler sampleLib ⟨failingDb "connection refused", ""⟩ St.fresh samplePost
      = searchHandler sampleLib ⟨failingDb "deadlock detected", ""⟩ St.fresh samplePost ∧
    errorWrites (searchHandler sampleLib ⟨failingDb "connection refused", ""⟩
        St.fresh samplePost).trace
      = ["\x7b\"message\":\"Erro ao realizar a pesquisa.\"\x7d"] ∧
    errorWrites (searchHandler sampleLib ⟨failingDb "deadlock detected", ""⟩
        St.fresh samplePost).trace
      = ["\x7b\"message\":\"Erro ao realizar a pesquisa.\"\x7d"] :=
  ⟨by decide, rfl, by decide, by decide⟩

/-- Claim C9, amended. For every error `Search` returns, `searchHandler` is the call
of `messageResponse` with status 500 and one fixed non-empty message, so that
two runs that differ only in the error are equal, in the response and in the
trace; the message serializing, the response has status 500 with the serialized
message as body and the error channel receives one write, that same serialized
message: the detail of the error reaches neither the client nor the channel. -/
theorem searchHandler_storage_failure (lib : JsonLib Item) (app : api Item) (st : St Item)
    (r : Request) (req0 : searchRequest) (e : Error) (hm : r.Method = MethodPost)
    (hd : decodeBody r.Body = Except.ok req0)
    (hs : app.db.Search (normalize req0) = Except.error e) :
    searchHandler lib app st r
      = messageResponse lib ((st.record Event.decode).record (Event.search (normalize req0)))
          StatusInternalServerError msgSearch ∧
    StatusInternalServerError = 500 ∧ msgSearch ≠ "" ∧
    (∀ (app2 : api Item) (e2 : Error), app2.db.Search (normalize req0) = Except.error e2 →
      searchHandler lib app2 st r = searchHandler lib app st r) ∧
    (∀ b, lib.marshal ⟨msgSearch⟩ = Except.ok b →
      errorWrites (searchHandler lib app st r).trace = errorWrites st.trace ++ [b] ∧
      (st.w.wroteHeader = false →
        (searchHandler lib app st r).w.status = 500 ∧
        (searchHandler lib app st r).w.body = st.w.body ++ [b])) := by
  have hne : msgSearch ≠ "" := by decide
  have hgen : ∀ (app1 : api Item) (e1 : Error),
      app1.db.Search (normalize req0) = Except.error e1 →
      searchHandler lib app1 st r
        = messageResponse lib ((st.record Event.decode).record (Event.search (normalize req0)))
            StatusInternalServerError msgSearch := by
    intro app1 e1 h1
    unfold searchHandler
    simp only [hm, hd, h1, ne_eq, not_true_eq_false, if_false]
  have h0 := hgen app e hs
  refine ⟨h0, rfl, hne, ?_, ?_⟩
  · intro app2 e2 h2
    rw [h0, hgen app2 e2 h2]
  · intro b hb
    rw [h0]
    refine ⟨?_, ?_⟩
    · simp [messageResponse, hne, hb, St.WriteHeader, St.headerSet, St.Write, St.record,
        St.logError, errorWrites_append, errorWrites]
    · intro hw
      refine ⟨messageResponse_status lib _ _ _ (by exact hw) (Or.inr ⟨b, hb⟩), ?_⟩
      simp [messageResponse, hne, hb, St.WriteHeader, St.headerSet, St.Write, St.record,
        St.logError, ResponseWriter.WriteHeader, ResponseWriter.headerSet,
        ResponseWriter.Write, hw]

/-- Witness of claim C9, amended: a storage that reports a refused connection. -/
theorem searchHandler_storage_failure_witness :
    samplePost.Method = MethodPost ∧
    decodeBody samplePost.Body = Except.ok ⟨3, 50⟩ ∧
    (failingDb "connection refused").Search (normalize ⟨3, 50⟩)
      = (Except.error "connection refused" : Except Error (List Nat)) ∧
    (searchHandler sampleLib ⟨failingDb "connection refused", ""⟩ St.fresh samplePost).w.status
      = 500 ∧
    errorWrites (searchHandler sampleLib ⟨failingDb "connection refused", ""⟩
        St.fresh samplePost).trace
      = errorWrites (St.fresh : St Nat).trace
        ++ ["\x7b\"message\":\"Erro ao realizar a pesquisa.\"\x7d"] :=
  have h := (searchHandler_storage_failure sampleLib ⟨failingDb "connection refused", ""⟩
    St.fresh samplePost ⟨3, 50⟩ "connection refused" (by decide) rfl rfl).2.2.2.2
      "\x7b\"message\":\"Erro ao realizar a pesquisa.\"\x7d" rfl
  ⟨by decide, rfl, rfl, (h.2 rfl).1, h.1⟩

/-- Claim C10. For every wrapped handler and every request: when the allowed host
is non-empty and differs from the host the request declares, the handler
returned by `allowedHostWrapper` is the call of `messageResponse` with the
policy's status, a client-error status that is never 500, whatever the wrapped
handler is, so that the wrapped handler is not run and `Search` is not called;
the message being empty or serializing, the response has that status. When the
allowed host is empty or equals the request's host, it is the wrapped handler
on the same writer and request. `Serve` registers each of `/`, `/updated`,
`/healthz` and `/search` behind this wrapper. -/
theorem allowedHostWrapper_guard (lib : JsonLib Item) (policy : GuardPolicy) (app : api Item)
    (h : Handler Item) (st : St Item) (r : Request) :
    (app.host ≠ "" → app.host ≠ r.Host →
      allowedHostWrapper lib policy app h st r
        = messageResponse lib st policy.status policy.message ∧
      400 ≤ policy.status ∧ policy.status ≤ 499 ∧
      policy.status ≠ StatusInternalServerError ∧
      (∀ h2 : Handler Item,
        allowedHostWrapper lib policy app h2 st r = allowedHostWrapper lib policy app h st r) ∧
      searchCalls (allowedHostWrapper lib policy app h st r).trace = searchCalls st.trace ∧
      (st.w.wroteHeader = false →
        (policy.message = "" ∨ ∃ b, lib.marshal ⟨policy.message⟩ = Except.ok b) →
        (allowedHostWrapper lib policy app h st r).w.status = policy.status)) ∧
    (app.host = "" ∨ app.host = r.Host → allowedHostWrapper lib policy app h st r = h st r) ∧
    (∀ (newRelicHandle : String → Handler Item → String × Handler Item)
        (allowedHost : String) (db : database Item) (p : String),
      (Serve lib policy newRelicHandle allowedHost db p).mux
        = [newRelicHandle "/"
             (allowedHostWrapper lib policy ⟨db, allowedHost⟩ (companyHandler ⟨db, allowedHost⟩)),
           newRelicHandle "/updated"
             (allowedHostWrapper lib policy ⟨db, allowedHost⟩ (updatedHandler ⟨db, allowedHost⟩)),
           newRelicHandle "/healthz"
             (allowedHostWrapper lib policy ⟨db, allowedHost⟩ (healthHandler ⟨db, allowedHost⟩)),
           newRelicHandle "/search"
             (allowedHostWrapper lib policy ⟨db, allowedHost⟩
               (searchHandler lib ⟨db, allowedHost⟩))]) := by
  refine ⟨?_, ?_, ?_⟩
  · intro h1 h2
    have hgen : ∀ h3 : Handler Item, allowedHostWrapper lib policy app h3 st r
        = messageResponse lib st policy.status policy.message := by
      intro h3
      unfold allowedHostWrapper
      rw [if_pos ⟨h1, h2⟩]
    refine ⟨hgen h, policy.client.1, policy.client.2, ?_, ?_, ?_, ?_⟩
    · have := policy.client.2
      unfold StatusInternalServerError
      omega
    · intro h3
      rw [hgen h3, hgen h]
    · rw [hgen h, messageResponse_searchCalls]
    · intro hw hmsg
      rw [hgen h]
      exact messageResponse_status lib st _ _ hw hmsg
  · intro hor
    unfold allowedHostWrapper
    have hn : ¬ (app.host ≠ "" ∧ app.host ≠ r.Host) := by
      rintro ⟨h1, h2⟩
      rcases hor with h | h
      · exact h1 h
      · exact h2 h
    rw [if_neg hn]
  · intro newRelicHandle allowedHost db p
    rfl

/-- Witness of claim C10: a search request that declares a foreign host is answered
403 without a search, and is searched when the guard is disabled. -/
theorem allowedHostWrapper_guard_witness :
    guardedApp.host ≠ "" ∧ guardedApp.host ≠ foreignPost.Host ∧
    searchCalls (allowedHostWrapper sampleLib samplePolicy guardedApp
        (searchHandler sampleLib guardedApp) St.fresh foreignPost).trace
      = searchCalls (St.fresh : St Nat).trace ∧
    (allowedHostWrapper sampleLib samplePolicy guardedApp
        (searchHandler sampleLib guardedApp) St.fresh foreignPost).w.status = 403 ∧
    allowedHostWrapper sampleLib samplePolicy sampleApp
        (searchHandler sampleLib sampleApp) St.fresh foreignPost
      = searchHandler sampleLib sampleApp St.fresh foreignPost :=
  have h1 := (allowedHostWrapper_guard sampleLib samplePolicy guardedApp
    (searchHandler sampleLib guardedApp) St.fresh foreignPost).1 (by decide) (by decide)
  ⟨by decide, by decide, h1.2.2.2.2.2.1, h1.2.2.2.2.2.2 rfl (Or.inr ⟨_, rfl⟩),
    (allowedHostWrapper_guard sampleLib samplePolicy sampleApp
      (searchHandler sampleLib sampleApp) St.fresh foreignPost).2.1 (Or.inl rfl)⟩

end Api
